import Mathlib

/-!
Verification of `sdks/python/bundle_server.py`.

The script copies pre-built server artifacts from a monorepo's `core` package
into the Python package directory `sdks/python/pmxt/_server`.  We model the
filesystem as a partial map from paths (lists of components, rooted at the
monorepo root) to nodes (regular files with their content, or directories).
Each `pathlib`/`shutil` operation the script performs is embedded as a function
on this filesystem model; operations that can raise an unhandled Python
exception return `Except.error` carrying the exception name and the filesystem
at fault time.  Output to stderr (the three diagnostics) is modelled as a list
of message lines in the normal return value; progress lines on stdout are not
modelled (the spec gives them no stable contract).
-/

namespace PmxtBundle

/-- A node of the filesystem tree: a regular file with its byte content, or a
directory. -/
inductive Node where
  | file (content : String) : Node
  | dir : Node
deriving DecidableEq

/-- A filesystem state: a partial map from paths (component lists rooted at the
monorepo root) to nodes.  `none` means nothing exists at that path. -/
abbrev FS := List String → Option Node

/-- `script_dir = Path(__file__).parent`, i.e. `sdks/python` (line 19). -/
def scriptDir : List String := ["sdks", "python"]

/-- `core_dir = script_dir.parent.parent / 'core'` (line 20). -/
def coreDir : List String := ["core"]

/-- `server_dist = core_dir / 'dist' / 'server'` (line 30). -/
def serverDist : List String := ["core", "dist", "server"]

/-- `bundled_server = server_dist / 'bundled.js'` (line 31). -/
def bundledServer : List String := ["core", "dist", "server", "bundled.js"]

/-- `bin_dir = core_dir / 'bin'` (line 38). -/
def binDir : List String := ["core", "bin"]

/-- `target_dir = script_dir / 'pmxt' / '_server'` (line 21). -/
def targetDir : List String := ["sdks", "python", "pmxt", "_server"]

/-- `server_target = target_dir / 'server'` (line 48). -/
def serverTarget : List String := ["sdks", "python", "pmxt", "_server", "server"]

/-- `target_dir / 'bin'`, destination of the bin copy (lines 53-56). -/
def targetBin : List String := ["sdks", "python", "pmxt", "_server", "bin"]

/-- `target_dir / '__init__.py'`, the package marker file (line 67). -/
def initPy : List String := ["sdks", "python", "pmxt", "_server", "__init__.py"]

/-- `server_target / 'bundled.js'`, destination of the artifact copy (line 50). -/
def dstArtifact : List String := ["sdks", "python", "pmxt", "_server", "server", "bundled.js"]

/-- Render a path the way the script's diagnostics interpolate it. -/
def pathString (p : List String) : String := String.intercalate "/" p

/-- The two stderr lines of lines 25-26 (missing core directory). -/
def coreMissingMsg : List String :=
  ["Error: core directory not found at " ++ pathString coreDir,
   "This script must be run from the monorepo structure"]

/-- The two stderr lines of lines 34-35 (missing built artifact). -/
def bundledMissingMsg : List String :=
  ["Error: Bundled server not found at " ++ pathString bundledServer,
   "Please run npm run build && npm run bundle:server in core/"]

/-- The stderr line of line 40 (missing bin directory). -/
def binMissingMsg : List String :=
  ["Error: bin directory not found at " ++ pathString binDir]

/-- `Path.exists()`: kind-insensitive existence test (lines 24, 33, 39, 54). -/
def pexists (fs : FS) (p : List String) : Bool := (fs p).isSome

/-- A directory sits at `p` (`Path.is_dir()`, used by line 61 and inside the
modelled `shutil` operations). -/
def isDir (fs : FS) (p : List String) : Bool :=
  match fs p with
  | some Node.dir => true
  | _ => false

/-- A regular file sits at `p`. -/
def isFile (fs : FS) (p : List String) : Bool :=
  match fs p with
  | some (Node.file _) => true
  | _ => false

/-- Fill every missing component on the way to `p` (inclusive) with a
directory; the pointwise effect of a successful `mkdir(parents=True,
exist_ok=True)`. -/
def mkAdd (fs : FS) (p : List String) : FS :=
  fun q => if q.isPrefixOf p && (fs q).isNone then some Node.dir else fs q

/-- Place node `n` at path `p`, leaving everything else unchanged. -/
def setNode (fs : FS) (p : List String) (n : Node) : FS :=
  fun q => if q = p then some n else fs q

/-- Drop `p` together with its whole subtree; the pointwise effect of a
successful `shutil.rmtree(p)`. -/
def removeTree (fs : FS) (p : List String) : FS :=
  fun q => if p.isPrefixOf q then none else fs q

/-- Replicate the subtree rooted at `src` at `dst`; the pointwise effect of a
successful `shutil.copytree(src, dst)` onto a previously absent `dst`. -/
def copySub (fs : FS) (src dst : List String) : FS :=
  fun q => if dst.isPrefixOf q then fs (src ++ q.drop dst.length) else fs q

/-- Effective destination of `shutil.copy(src, dst)`: when a directory sits at
`dst` the file goes into it under `src`'s base name, otherwise to `dst`
itself. -/
def copyDst (fs : FS) (src dst : List String) : List String :=
  if isDir fs dst then dst ++ [src.getLast!] else dst

/-- `p.mkdir(parents=True, exist_ok=True)` (line 44): creates `p` and any
missing ancestors as directories; no-op on components that already exist as
directories; raises when a regular file occupies `p` or one of its
ancestors. -/
def mkdirParents (fs : FS) (p : List String) : Except (String × FS) FS :=
  if (p.inits).any (fun q => isFile fs q) then
    Except.error ("NotADirectoryError", fs)
  else
    Except.ok (mkAdd fs p)

/-- `p.mkdir(exist_ok=True)` (line 49): no-op if a directory already sits at
`p`; raises on an existing regular file; otherwise creates the directory
(the parent must be a directory). -/
def mkdirSingle (fs : FS) (p : List String) : Except (String × FS) FS :=
  match fs p with
  | some Node.dir => Except.ok fs
  | some (Node.file _) => Except.error ("FileExistsError", fs)
  | none =>
    if isDir fs p.dropLast then
      Except.ok (setNode fs p Node.dir)
    else Except.error ("FileNotFoundError", fs)

/-- `shutil.copy(src, dst)` (line 50): raises when `src` is missing or a
directory; when a directory sits at `dst`, the file is copied into it under
`src`'s base name; overwrites an existing regular file; raises when the
effective destination is a directory or its parent is missing. -/
def shutilCopy (fs : FS) (src dst : List String) : Except (String × FS) FS :=
  match fs src with
  | none => Except.error ("FileNotFoundError", fs)
  | some Node.dir => Except.error ("IsADirectoryError", fs)
  | some (Node.file c) =>
    if isDir fs (copyDst fs src dst) then Except.error ("IsADirectoryError", fs)
    else if (fs (copyDst fs src dst)).isNone && !(isDir fs (copyDst fs src dst).dropLast) then
      Except.error ("FileNotFoundError", fs)
    else Except.ok (setNode fs (copyDst fs src dst) (Node.file c))

/-- `shutil.rmtree(p)` (lines 55, 62): removes the directory at `p` together
with its whole subtree; raises when `p` is a regular file or missing. -/
def rmtree (fs : FS) (p : List String) : Except (String × FS) FS :=
  match fs p with
  | some Node.dir => Except.ok (removeTree fs p)
  | some (Node.file _) => Except.error ("NotADirectoryError", fs)
  | none => Except.error ("FileNotFoundError", fs)

/-- `shutil.copytree(src, dst)` (line 56): raises when `src` is missing or not
a directory, or when `dst` already exists; otherwise replicates the whole
subtree rooted at `src` at `dst`. -/
def copytree (fs : FS) (src dst : List String) : Except (String × FS) FS :=
  match fs src with
  | none => Except.error ("FileNotFoundError", fs)
  | some (Node.file _) => Except.error ("NotADirectoryError", fs)
  | some Node.dir =>
    if pexists fs dst then Except.error ("FileExistsError", fs)
    else Except.ok (copySub fs src dst)

/-- The exemption test of line 60: an entry of the server directory is kept
exactly when its name is `bundled.js` or `__pycache__` (a name-only test,
regardless of the entry's kind).  `q` is kept when it is not a proper
descendant of `server_target`, or when its component directly below
`server_target` is one of the two exempted names. -/
def sweepKeep (q : List String) : Bool :=
  !(serverTarget.isPrefixOf q) || q.length == serverTarget.length ||
    q.get? serverTarget.length == some "bundled.js" ||
    q.get? serverTarget.length == some "__pycache__"

/-- The cleanup loop of lines 58-64: every entry of `server_target` whose name
is neither `bundled.js` nor `__pycache__` is removed — `shutil.rmtree` for a
directory, `unlink` for a file.  Its aggregate effect on the filesystem is to
drop exactly the proper descendants of `server_target` whose component
directly below it is not one of the two exempted names. -/
def sweep (fs : FS) : FS := fun q => if sweepKeep q then fs q else none

/-- `p.touch()` (line 67): no-op when anything already exists at `p`
(`touch` does not truncate); otherwise creates an empty file (the parent must
be a directory). -/
def touch (fs : FS) (p : List String) : Except (String × FS) FS :=
  match fs p with
  | some _ => Except.ok fs
  | none =>
    if isDir fs p.dropLast then
      Except.ok (setNode fs p (Node.file ""))
    else Except.error ("FileNotFoundError", fs)

/-- Shallow embedding of `bundle_server()` (lines 15-68).  Normal return
carries the boolean result, the final filesystem, and the stderr lines;
`Except.error` is an unhandled Python exception (name and filesystem at fault
time). -/
def bundle_server (fs : FS) : Except (String × FS) (Bool × FS × List String) :=
  if !(pexists fs coreDir) then Except.ok (false, fs, coreMissingMsg)
  else if !(pexists fs bundledServer) then Except.ok (false, fs, bundledMissingMsg)
  else if !(pexists fs binDir) then Except.ok (false, fs, binMissingMsg)
  else
    match mkdirParents fs targetDir with
    | Except.error e => Except.error e
    | Except.ok fs1 =>
      match mkdirSingle fs1 serverTarget with
      | Except.error e => Except.error e
      | Except.ok fs2 =>
        match shutilCopy fs2 bundledServer dstArtifact with
        | Except.error e => Except.error e
        | Except.ok fs3 =>
          match (if pexists fs3 targetBin then rmtree fs3 targetBin else Except.ok fs3) with
          | Except.error e => Except.error e
          | Except.ok fs4 =>
            match copytree fs4 binDir targetBin with
            | Except.error e => Except.error e
            | Except.ok fs5 =>
              match touch (sweep fs5) initPy with
              | Except.error e => Except.error e
              | Except.ok fs7 => Except.ok (true, fs7, [])

/-- The run returned `True`. -/
def succeeds (fs : FS) : Bool :=
  match bundle_server fs with
  | Except.ok (true, _, _) => true
  | _ => false

/-- The filesystem after the run (final state on normal return, state at fault
time on an unhandled exception). -/
def runFS (fs : FS) : FS :=
  match bundle_server fs with
  | Except.ok (_, g, _) => g
  | Except.error (_, g) => g

/-- The run aborted with an unhandled exception. -/
def faulted (fs : FS) : Bool :=
  match bundle_server fs with
  | Except.error _ => true
  | _ => false

/-- Name of the unhandled exception, when one was raised. -/
def faultExc (fs : FS) : Option String :=
  match bundle_server fs with
  | Except.error (e, _) => some e
  | _ => none

/-- The `__main__` block (lines 71-73): `sys.exit(0 if success else 1)`.
A normal return exits with status 0 or 1; an unhandled exception is an
abnormal abort, modelled as no recognized exit status. -/
def main_exit (fs : FS) : Option Nat :=
  match bundle_server fs with
  | Except.ok (true, _, _) => some 0
  | Except.ok (false, _, _) => some 1
  | Except.error _ => none

/-- Content of the built artifact file, when one sits at its expected path. -/
def artifactContent (fs : FS) : String :=
  match fs bundledServer with
  | some (Node.file c) => c
  | _ => ""

/-- A monorepo checkout with a populated target tree left by a previous run,
including a stray file, a regular file named `__pycache__`, and a stale
non-empty `__init__.py`. -/
def fsPre : FS := fun q =>
  if q = ([] : List String) then some Node.dir
  else if q = ["sdks"] then some Node.dir
  else if q = ["sdks", "python"] then some Node.dir
  else if q = ["sdks", "python", "pmxt"] then some Node.dir
  else if q = targetDir then some Node.dir
  else if q = serverTarget then some Node.dir
  else if q = ["core"] then some Node.dir
  else if q = ["core", "dist"] then some Node.dir
  else if q = ["core", "dist", "server"] then some Node.dir
  else if q = bundledServer then some (Node.file "ART")
  else if q = ["core", "bin"] then some Node.dir
  else if q = ["core", "bin", "cli"] then some (Node.file "CLI")
  else if q = serverTarget ++ ["__pycache__"] then some (Node.file "junk")
  else if q = serverTarget ++ ["stray"] then some (Node.file "old")
  else if q = initPy then some (Node.file "stale")
  else none

/-- A monorepo checkout in which the target directory does not exist at all. -/
def fsFresh : FS := fun q =>
  if q = ([] : List String) then some Node.dir
  else if q = ["sdks"] then some Node.dir
  else if q = ["sdks", "python"] then some Node.dir
  else if q = ["core"] then some Node.dir
  else if q = ["core", "dist"] then some Node.dir
  else if q = ["core", "dist", "server"] then some Node.dir
  else if q = bundledServer then some (Node.file "ART")
  else if q = ["core", "bin"] then some Node.dir
  else if q = ["core", "bin", "cli"] then some (Node.file "CLI")
  else none

/-- A filesystem state in which a directory occupies the artifact path. -/
def fsDirArtifact : FS := fun q =>
  if q = ([] : List String) then some Node.dir
  else if q = ["sdks"] then some Node.dir
  else if q = ["sdks", "python"] then some Node.dir
  else if q = ["core"] then some Node.dir
  else if q = ["core", "dist"] then some Node.dir
  else if q = ["core", "dist", "server"] then some Node.dir
  else if q = bundledServer then some Node.dir
  else if q = ["core", "bin"] then some Node.dir
  else none

/-- A monorepo checkout whose three inputs are present and whose target
directory is absent, but where a regular file blocks the target ancestor
`sdks/python/pmxt`. -/
def fsBlocked : FS := fun q =>
  if q = ([] : List String) then some Node.dir
  else if q = ["sdks"] then some Node.dir
  else if q = ["sdks", "python"] then some Node.dir
  else if q = ["sdks", "python", "pmxt"] then some (Node.file "oops")
  else if q = ["core"] then some Node.dir
  else if q = ["core", "dist"] then some Node.dir
  else if q = ["core", "dist", "server"] then some Node.dir
  else if q = bundledServer then some (Node.file "ART")
  else if q = ["core", "bin"] then some Node.dir
  else none

/-- The empty filesystem. -/
def fsEmpty : FS := fun _ => none

/-- A filesystem holding only the core directory. -/
def fsCoreOnly : FS := fun q => if q = coreDir then some Node.dir else none

/-- A filesystem holding the core directory and the artifact but no bin
directory. -/
def fsNoBin : FS := fun q =>
  if q = coreDir then some Node.dir
  else if q = bundledServer then some (Node.file "ART")
  else none

/-! ### List toolkit -/

theorem isPrefixOf_iff (p q : List String) : p.isPrefixOf q = true ↔ ∃ t, q = p ++ t := by
  induction p generalizing q with
  | nil => simp [List.isPrefixOf]
  | cons a p ih =>
    cases q with
    | nil => simp [List.isPrefixOf]
    | cons b q' =>
      simp only [List.isPrefixOf, Bool.and_eq_true, beq_iff_eq, ih, List.cons_append,
        List.cons.injEq]
      constructor
      · rintro ⟨rfl, t, rfl⟩; exact ⟨t, rfl, rfl⟩
      · rintro ⟨t, rfl, rfl⟩; exact ⟨rfl, t, rfl⟩

theorem isPrefixOf_append_self (p t : List String) : p.isPrefixOf (p ++ t) = true :=
  (isPrefixOf_iff p (p ++ t)).mpr ⟨t, rfl⟩

theorem isPrefixOf_self (p : List String) : p.isPrefixOf p = true :=
  (isPrefixOf_iff p p).mpr ⟨[], by simp⟩

theorem isPrefixOf_false (p q : List String) (h : ∀ t, q ≠ p ++ t) :
    p.isPrefixOf q = false := by
  cases hb : p.isPrefixOf q with
  | false => rfl
  | true =>
    obtain ⟨t, ht⟩ := (isPrefixOf_iff p q).mp hb
    exact absurd ht (h t)

/-! ### Disjointness of the script's fixed paths

All facts below are head-component or length mismatches between the concrete
paths the script manipulates. -/

theorem core_notPre_targetDir (t : List String) :
    (coreDir ++ t).isPrefixOf targetDir = false := by
  apply isPrefixOf_false
  intro u hu
  simp [coreDir, targetDir] at hu

theorem targetBin_notPre_core (t : List String) :
    targetBin.isPrefixOf (coreDir ++ t) = false := by
  apply isPrefixOf_false
  intro u hu
  simp [coreDir, targetBin] at hu

theorem serverTarget_notPre_core (t : List String) :
    serverTarget.isPrefixOf (coreDir ++ t) = false := by
  apply isPrefixOf_false
  intro u hu
  simp [coreDir, serverTarget] at hu

theorem core_ne_serverTarget (t : List String) : coreDir ++ t ≠ serverTarget := by
  intro h; simp [coreDir, serverTarget] at h

theorem core_ne_dstArtifact (t : List String) : coreDir ++ t ≠ dstArtifact := by
  intro h; simp [coreDir, dstArtifact] at h

theorem core_ne_dstArtifact2 (t : List String) :
    coreDir ++ t ≠ dstArtifact ++ ["bundled.js"] := by
  intro h; simp [coreDir, dstArtifact] at h

theorem core_ne_initPy (t : List String) : coreDir ++ t ≠ initPy := by
  intro h; simp [coreDir, initPy] at h

theorem serverTarget_notPre_targetBin (t : List String) :
    serverTarget.isPrefixOf (targetBin ++ t) = false := by
  apply isPrefixOf_false
  intro u hu
  simp [targetBin, serverTarget] at hu

theorem targetBin_ne_initPy (t : List String) : targetBin ++ t ≠ initPy := by
  intro h; simp [targetBin, initPy] at h

theorem sweepKeep_core (t : List String) : sweepKeep (coreDir ++ t) = true := by
  simp [sweepKeep, serverTarget_notPre_core]

theorem sweepKeep_targetBin (t : List String) : sweepKeep (targetBin ++ t) = true := by
  simp [sweepKeep, serverTarget_notPre_targetBin]

/-! ### Inversion lemmas for the modelled operations -/

theorem not_bang_eq_true {b : Bool} (h : ¬((!b) = true)) : b = true := by
  cases b
  · exact absurd rfl h
  · rfl

theorem isDir_eq_true {fs : FS} {p : List String} (h : isDir fs p = true) :
    fs p = some Node.dir := by
  unfold isDir at h
  split at h
  next heq => exact heq
  next => exact absurd h (by simp)

theorem mkdirParents_ok {fs g : FS} {p : List String}
    (h : mkdirParents fs p = Except.ok g) :
    g = mkAdd fs p ∧ ∀ q, q.isPrefixOf p = true → isFile fs q = false := by
  unfold mkdirParents at h
  split at h
  · exact absurd h (by simp)
  next hc =>
    injection h with h'
    subst h'
    refine ⟨rfl, fun q hq => ?_⟩
    cases hf : isFile fs q with
    | false => rfl
    | true =>
      obtain ⟨t, ht⟩ := (isPrefixOf_iff q p).mp hq
      have hmem : q ∈ p.inits := (List.mem_inits q p).mpr ⟨t, ht.symm⟩
      exact absurd (List.any_eq_true.mpr ⟨q, hmem, hf⟩) hc

theorem mkdirSingle_ok {fs g : FS} {p : List String}
    (h : mkdirSingle fs p = Except.ok g) :
    g p = some Node.dir ∧ ∀ q, q ≠ p → g q = fs q := by
  unfold mkdirSingle at h
  split at h
  next hp =>
    injection h with h'
    subst h'
    exact ⟨hp, fun q _ => rfl⟩
  next => exact absurd h (by simp)
  next hp =>
    split at h
    · injection h with h'
      subst h'
      exact ⟨by simp [setNode], fun q hq => by simp [setNode, hq]⟩
    · exact absurd h (by simp)

theorem shutilCopy_ok {fs g : FS} {src dst : List String}
    (h : shutilCopy fs src dst = Except.ok g) :
    ∃ c, fs src = some (Node.file c) ∧ isDir fs (copyDst fs src dst) = false ∧
      g = setNode fs (copyDst fs src dst) (Node.file c) := by
  unfold shutilCopy at h
  split at h
  · exact absurd h (by simp)
  · exact absurd h (by simp)
  next c hsrc =>
    split at h
    · exact absurd h (by simp)
    next hnd =>
      split at h
      · exact absurd h (by simp)
      · injection h with h'
        subst h'
        have hb : isDir fs (copyDst fs src dst) = false := by
          cases hb : isDir fs (copyDst fs src dst) with
          | false => rfl
          | true => exact absurd hb hnd
        exact ⟨c, hsrc, hb, rfl⟩

theorem rmtree_ok {fs g : FS} {p : List String} (h : rmtree fs p = Except.ok g) :
    fs p = some Node.dir ∧ g = removeTree fs p := by
  unfold rmtree at h
  split at h
  next hp =>
    injection h with h'
    subst h'
    exact ⟨hp, rfl⟩
  next => exact absurd h (by simp)
  next => exact absurd h (by simp)

theorem copytree_ok {fs g : FS} {src dst : List String}
    (h : copytree fs src dst = Except.ok g) :
    fs src = some Node.dir ∧ pexists fs dst = false ∧ g = copySub fs src dst := by
  unfold copytree at h
  split at h
  · exact absurd h (by simp)
  · exact absurd h (by simp)
  next hsrc =>
    split at h
    · exact absurd h (by simp)
    next hex =>
      injection h with h'
      subst h'
      have hb : pexists fs dst = false := by
        cases hb : pexists fs dst with
        | false => rfl
        | true => exact absurd hb hex
      exact ⟨hsrc, hb, rfl⟩

theorem binStep_ok {fs g : FS}
    (h : (if pexists fs targetBin then rmtree fs targetBin else Except.ok fs) = Except.ok g) :
    ∀ q, targetBin.isPrefixOf q = false → g q = fs q := by
  split at h
  · obtain ⟨-, rfl⟩ := rmtree_ok h
    intro q hq
    simp [removeTree, hq]
  · injection h with h'
    subst h'
    intro q _
    rfl

theorem touch_ok {fs g : FS} {p : List String} (h : touch fs p = Except.ok g) :
    (∀ q, q ≠ p → g q = fs q) ∧
    g p = (match fs p with | none => some (Node.file "") | some n => some n) := by
  unfold touch at h
  split at h
  next n hp =>
    injection h with h'
    subst h'
    exact ⟨fun q _ => rfl, by rw [hp]⟩
  next hp =>
    split at h
    · injection h with h'
      subst h'
      refine ⟨fun q hq => by simp [setNode, hq], ?_⟩
      rw [hp]
      simp [setNode]
    · exact absurd h (by simp)

theorem mkAdd_out (fs : FS) (p q : List String) (h : q.isPrefixOf p = false) :
    mkAdd fs p q = fs q := by
  simp [mkAdd, h]

theorem setNode_ne (fs : FS) (p : List String) (n : Node) (q : List String) (h : q ≠ p) :
    setNode fs p n q = fs q := by
  simp [setNode, h]

theorem setNode_self (fs : FS) (p : List String) (n : Node) : setNode fs p n p = some n := by
  simp [setNode]

theorem removeTree_out (fs : FS) (p q : List String) (h : p.isPrefixOf q = false) :
    removeTree fs p q = fs q := by
  simp [removeTree, h]

theorem copySub_out (fs : FS) (src dst q : List String) (h : dst.isPrefixOf q = false) :
    copySub fs src dst q = fs q := by
  simp [copySub, h]

theorem copySub_in (fs : FS) (src dst t : List String) :
    copySub fs src dst (dst ++ t) = fs (src ++ t) := by
  simp [copySub, isPrefixOf_append_self, List.drop_left]

theorem sweep_keep (fs : FS) (q : List String) (h : sweepKeep q = true) :
    sweep fs q = fs q := by
  simp [sweep, h]

theorem sweep_drop (fs : FS) (q : List String) (h : sweepKeep q = false) :
    sweep fs q = none := by
  simp [sweep, h]

theorem bundle_server_ok {fs g : FS} {errs : List String}
    (h : bundle_server fs = Except.ok (true, g, errs)) :
    errs = [] ∧ pexists fs coreDir = true ∧ pexists fs bundledServer = true ∧
      pexists fs binDir = true ∧
      ∃ fs1 fs2 fs3 fs4 fs5,
        mkdirParents fs targetDir = Except.ok fs1 ∧
        mkdirSingle fs1 serverTarget = Except.ok fs2 ∧
        shutilCopy fs2 bundledServer dstArtifact = Except.ok fs3 ∧
        (if pexists fs3 targetBin then rmtree fs3 targetBin else Except.ok fs3) = Except.ok fs4 ∧
        copytree fs4 binDir targetBin = Except.ok fs5 ∧
        touch (sweep fs5) initPy = Except.ok g := by
  unfold bundle_server at h
  split at h
  · exact absurd h (by simp)
  next hb1 =>
    split at h
    · exact absurd h (by simp)
    next hb2 =>
      split at h
      · exact absurd h (by simp)
      next hb3 =>
        split at h
        next e he => exact absurd h (by simp)
        next fs1 hm1 =>
          split at h
          next e he => exact absurd h (by simp)
          next fs2 hm2 =>
            split at h
            next e he => exact absurd h (by simp)
            next fs3 hcp =>
              split at h
              next e he => exact absurd h (by simp)
              next fs4 hb4 =>
                split at h
                next e he => exact absurd h (by simp)
                next fs5 hct =>
                  split at h
                  next e he => exact absurd h (by simp)
                  next fs7 htc =>
                    injection h with h'
                    injection h' with hflag h''
                    injection h'' with h7 he
                    subst h7
                    subst he
                    exact ⟨rfl, not_bang_eq_true hb1, not_bang_eq_true hb2,
                      not_bang_eq_true hb3, fs1, fs2, fs3, fs4, fs5,
                      hm1, hm2, hcp, hb4, hct, htc⟩

/-- Everything a successful run guarantees about the final filesystem `g` in
terms of the initial one `fs`: the three inputs were present, the source
subtree is untouched, the target ancestors end up as directories, the `server`
directory survives, swept paths are gone, the destination bin subtree mirrors
the source bin subtree, the marker file is created only when absent, and the
artifact destination holds the copied artifact (or, when a directory already
occupied that path, the directory with the artifact copied inside it). -/
theorem run_facts {fs g : FS} {errs : List String}
    (h : bundle_server fs = Except.ok (true, g, errs)) :
    fs bundledServer = some (Node.file (artifactContent fs)) ∧
    fs binDir = some Node.dir ∧
    pexists fs coreDir = true ∧
    (∀ q, coreDir.isPrefixOf q = true → g q = fs q) ∧
    (∀ q, q.isPrefixOf targetDir = true → g q = some Node.dir) ∧
    g serverTarget = some Node.dir ∧
    (∀ q, sweepKeep q = false → g q = none) ∧
    (∀ rest, g (targetBin ++ rest) = fs (binDir ++ rest)) ∧
    g initPy = (match fs initPy with | none => some (Node.file "") | some n => some n) ∧
    (isDir fs dstArtifact = false → g dstArtifact = some (Node.file (artifactContent fs))) ∧
    (isDir fs dstArtifact = true → g dstArtifact = some Node.dir ∧
      g (dstArtifact ++ ["bundled.js"]) = some (Node.file (artifactContent fs))) := by
  obtain ⟨-, hpc, -, -, fs1, fs2, fs3, fs4, fs5, hm1, hm2, hcp, hb4, hct, htc⟩ :=
    bundle_server_ok h
  obtain ⟨rfl, hnf⟩ := mkdirParents_ok hm1
  obtain ⟨hS2a, hS2b⟩ := mkdirSingle_ok hm2
  obtain ⟨c, hsrc, hnd, rfl⟩ := shutilCopy_ok hcp
  have hS4 := binStep_ok hb4
  obtain ⟨hbin4, hnex, rfl⟩ := copytree_ok hct
  obtain ⟨hGa, hGb⟩ := touch_ok htc
  set D := copyDst fs2 bundledServer dstArtifact with hDdef
  have hD : D = dstArtifact ∨ D = dstArtifact ++ ["bundled.js"] := by
    rw [hDdef]
    unfold copyDst
    split
    · right; decide
    · left; rfl
  have hfsart : fs bundledServer = some (Node.file c) := by
    have h1 := hS2b bundledServer (by decide)
    rw [h1, mkAdd_out fs targetDir bundledServer (by decide)] at hsrc
    exact hsrc
  have hac : artifactContent fs = c := by simp [artifactContent, hfsart]
  have P3 : ∀ q, targetBin.isPrefixOf q = false → sweepKeep q = true → q ≠ initPy →
      g q = setNode fs2 D (Node.file c) q := by
    intro q h1 h2 h3
    rw [hGa q h3, sweep_keep _ q h2, copySub_out fs4 binDir targetBin q h1, hS4 q h1]
  have P2 : ∀ q, q ≠ serverTarget → q ≠ D → targetBin.isPrefixOf q = false →
      sweepKeep q = true → q ≠ initPy → g q = mkAdd fs targetDir q := by
    intro q h0 h1 h2 h3 h4
    rw [P3 q h2 h3 h4, setNode_ne fs2 D (Node.file c) q h1, hS2b q h0]
  have P1 : ∀ q, q.isPrefixOf targetDir = false → q ≠ serverTarget → q ≠ D →
      targetBin.isPrefixOf q = false → sweepKeep q = true → q ≠ initPy → g q = fs q := by
    intro q h00 h0 h1 h2 h3 h4
    rw [P2 q h0 h1 h2 h3 h4, mkAdd_out fs targetDir q h00]
  have Msrc : ∀ q, coreDir.isPrefixOf q = true → g q = fs q := by
    intro q hq
    obtain ⟨t, rfl⟩ := (isPrefixOf_iff _ _).mp hq
    have hne : coreDir ++ t ≠ D := by
      rcases hD with hD | hD
      · rw [hD]; exact core_ne_dstArtifact t
      · rw [hD]; exact core_ne_dstArtifact2 t
    exact P1 _ (core_notPre_targetDir t) (core_ne_serverTarget t) hne
      (targetBin_notPre_core t) (sweepKeep_core t) (core_ne_initPy t)
  have MbinD : fs binDir = some Node.dir := by
    have hne : (binDir : List String) ≠ D := by
      rcases hD with hD | hD
      · rw [hD]; decide
      · rw [hD]; decide
    rw [hS4 binDir (by decide), setNode_ne fs2 D (Node.file c) binDir hne,
      hS2b binDir (by decide), mkAdd_out fs targetDir binDir (by decide)] at hbin4
    exact hbin4
  have Mpre : ∀ q, q.isPrefixOf targetDir = true → g q = some Node.dir := by
    intro q hq
    obtain ⟨u, hu⟩ := (isPrefixOf_iff _ _).mp hq
    have hq1 : mkAdd fs targetDir q = some Node.dir := by
      have hnf' := hnf q hq
      cases hfq : fs q with
      | none => simp [mkAdd, hq, hfq]
      | some n =>
        cases n with
        | file s => simp [isFile, hfq] at hnf'
        | dir => simp [mkAdd, hfq]
    have h0 : q ≠ serverTarget := by
      rintro rfl
      simp [targetDir, serverTarget] at hu
    have h1 : q ≠ D := by
      rcases hD with hD | hD <;> rw [hD] <;> rintro rfl <;>
        simp [targetDir, dstArtifact] at hu
    have h2 : targetBin.isPrefixOf q = false := by
      cases hb : targetBin.isPrefixOf q with
      | false => rfl
      | true =>
        obtain ⟨v, rfl⟩ := (isPrefixOf_iff _ _).mp hb
        rw [List.append_assoc] at hu
        simp [targetDir, targetBin] at hu
    have hsv : serverTarget.isPrefixOf q = false := by
      cases hb : serverTarget.isPrefixOf q with
      | false => rfl
      | true =>
        obtain ⟨v, rfl⟩ := (isPrefixOf_iff _ _).mp hb
        rw [List.append_assoc] at hu
        simp [targetDir, serverTarget] at hu
    have h3 : sweepKeep q = true := by simp [sweepKeep, hsv]
    have h4 : q ≠ initPy := by
      rintro rfl
      simp [targetDir, initPy] at hu
    rw [P2 q h0 h1 h2 h3 h4, hq1]
  have Msrv : g serverTarget = some Node.dir := by
    have h1 : (serverTarget : List String) ≠ D := by
      rcases hD with hD | hD <;> rw [hD] <;> decide
    rw [P3 serverTarget (by decide) (by decide) (by decide),
      setNode_ne fs2 D (Node.file c) serverTarget h1]
    exact hS2a
  have Msw : ∀ q, sweepKeep q = false → g q = none := by
    intro q hq
    have hne : q ≠ initPy := by
      rintro rfl
      exact absurd hq (by decide)
    rw [hGa q hne, sweep_drop _ q hq]
  have Mbin : ∀ rest, g (targetBin ++ rest) = fs (binDir ++ rest) := by
    intro rest
    have hne : binDir ++ rest ≠ D := by
      rcases hD with hD | hD
      · rw [hD]; exact core_ne_dstArtifact ("bin" :: rest)
      · rw [hD]; exact core_ne_dstArtifact2 ("bin" :: rest)
    rw [hGa _ (targetBin_ne_initPy rest), sweep_keep _ _ (sweepKeep_targetBin rest),
      copySub_in fs4 binDir targetBin rest,
      hS4 (binDir ++ rest) (targetBin_notPre_core ("bin" :: rest)),
      setNode_ne fs2 D (Node.file c) (binDir ++ rest) hne,
      hS2b (binDir ++ rest) (core_ne_serverTarget ("bin" :: rest)),
      mkAdd_out fs targetDir (binDir ++ rest) (core_notPre_targetDir ("bin" :: rest))]
  have hfs2dst : fs2 dstArtifact = fs dstArtifact := by
    rw [hS2b dstArtifact (by decide), mkAdd_out fs targetDir dstArtifact (by decide)]
  have hisdir2 : isDir fs2 dstArtifact = isDir fs dstArtifact := by
    unfold isDir
    rw [hfs2dst]
  have Minit : g initPy =
      (match fs initPy with | none => some (Node.file "") | some n => some n) := by
    have hne : (initPy : List String) ≠ D := by
      rcases hD with hD | hD <;> rw [hD] <;> decide
    have e : sweep (copySub fs4 binDir targetBin) initPy = fs initPy := by
      rw [sweep_keep _ initPy (by decide), copySub_out fs4 binDir targetBin initPy (by decide),
        hS4 initPy (by decide), setNode_ne fs2 D (Node.file c) initPy hne,
        hS2b initPy (by decide), mkAdd_out fs targetDir initPy (by decide)]
    rw [hGb, e]
  have Mdst1 : isDir fs dstArtifact = false →
      g dstArtifact = some (Node.file (artifactContent fs)) := by
    intro hdd
    have hDval : D = dstArtifact := by
      rw [hDdef]
      unfold copyDst
      rw [hisdir2, hdd]
      decide
    rw [P3 dstArtifact (by decide) (by decide) (by decide), hDval,
      setNode_self fs2 dstArtifact (Node.file c), hac]
  have Mdst2 : isDir fs dstArtifact = true →
      g dstArtifact = some Node.dir ∧
      g (dstArtifact ++ ["bundled.js"]) = some (Node.file (artifactContent fs)) := by
    intro hdd
    have hDval : D = dstArtifact ++ ["bundled.js"] := by
      rw [hDdef]
      unfold copyDst
      rw [hisdir2, hdd]
      decide
    constructor
    · have hne : (dstArtifact : List String) ≠ D := by rw [hDval]; decide
      rw [P3 dstArtifact (by decide) (by decide) (by decide),
        setNode_ne fs2 D (Node.file c) dstArtifact hne, hfs2dst]
      exact isDir_eq_true hdd
    · rw [P3 (dstArtifact ++ ["bundled.js"]) (by decide) (by decide) (by decide),
        ← hDval, setNode_self fs2 D (Node.file c), hac]
  have M0 : fs bundledServer = some (Node.file (artifactContent fs)) := by
    rw [hac]
    exact hfsart
  exact ⟨M0, MbinD, hpc, Msrc, Mpre, Msrv, Msw, Mbin, Minit, Mdst1, Mdst2⟩

/-! ### Forward evaluation lemmas -/

theorem isPrefixOf_antisymm {p q : List String} (h1 : p.isPrefixOf q = true) (hne : q ≠ p) :
    q.isPrefixOf p = false := by
  obtain ⟨t, rfl⟩ := (isPrefixOf_iff _ _).mp h1
  cases t with
  | nil => exact absurd (List.append_nil p) hne
  | cons a t' =>
    apply isPrefixOf_false
    intro u hu
    have hl := congrArg List.length hu
    rw [List.length_append, List.length_append, List.length_cons] at hl
    omega

theorem mkdirParents_eval {fs : FS} {p : List String}
    (h : (p.inits).any (fun q => isFile fs q) = false) :
    mkdirParents fs p = Except.ok (mkAdd fs p) := by
  unfold mkdirParents
  simp [h]

theorem mkdirSingle_eval_dir {fs : FS} {p : List String} (h : fs p = some Node.dir) :
    mkdirSingle fs p = Except.ok fs := by
  unfold mkdirSingle
  simp only [h]

theorem mkdirSingle_eval_new {fs : FS} {p : List String} (h1 : fs p = none)
    (h2 : isDir fs p.dropLast = true) :
    mkdirSingle fs p = Except.ok (setNode fs p Node.dir) := by
  unfold mkdirSingle
  simp [h1, h2]

theorem shutilCopy_eval {fs : FS} {src dst : List String} {c : String}
    (hsrc : fs src = some (Node.file c))
    (hnd : isDir fs (copyDst fs src dst) = false)
    (hok : ((fs (copyDst fs src dst)).isNone && !(isDir fs (copyDst fs src dst).dropLast))
      = false) :
    shutilCopy fs src dst = Except.ok (setNode fs (copyDst fs src dst) (Node.file c)) := by
  unfold shutilCopy
  simp [hsrc, hnd, hok]

theorem rmtree_eval {fs : FS} {p : List String} (h : fs p = some Node.dir) :
    rmtree fs p = Except.ok (removeTree fs p) := by
  unfold rmtree
  simp [h]

theorem copytree_eval {fs : FS} {src dst : List String} (h1 : fs src = some Node.dir)
    (h2 : pexists fs dst = false) :
    copytree fs src dst = Except.ok (copySub fs src dst) := by
  unfold copytree
  simp [h1, h2]

theorem touch_eval_some {fs : FS} {p : List String} {n : Node} (h : fs p = some n) :
    touch fs p = Except.ok fs := by
  unfold touch
  simp only [h]

theorem touch_eval_none {fs : FS} {p : List String} (h1 : fs p = none)
    (h2 : isDir fs p.dropLast = true) :
    touch fs p = Except.ok (setNode fs p (Node.file "")) := by
  unfold touch
  simp [h1, h2]

theorem binStep_eval_none {fs : FS} (h : pexists fs targetBin = false) :
    (if pexists fs targetBin then rmtree fs targetBin else Except.ok fs) = Except.ok fs := by
  simp [h]

theorem binStep_eval_dir {fs : FS} (h : fs targetBin = some Node.dir) :
    (if pexists fs targetBin then rmtree fs targetBin else Except.ok fs)
      = Except.ok (removeTree fs targetBin) := by
  have hp : pexists fs targetBin = true := by simp [pexists, h]
  simp [hp, rmtree_eval h]

theorem bundle_server_eval {fs fs1 fs2 fs3 fs4 fs5 fs7 : FS}
    (h0 : pexists fs coreDir = true) (h0b : pexists fs bundledServer = true)
    (h0c : pexists fs binDir = true)
    (e1 : mkdirParents fs targetDir = Except.ok fs1)
    (e2 : mkdirSingle fs1 serverTarget = Except.ok fs2)
    (e3 : shutilCopy fs2 bundledServer dstArtifact = Except.ok fs3)
    (e4 : (if pexists fs3 targetBin then rmtree fs3 targetBin else Except.ok fs3)
      = Except.ok fs4)
    (e5 : copytree fs4 binDir targetBin = Except.ok fs5)
    (e6 : touch (sweep fs5) initPy = Except.ok fs7) :
    bundle_server fs = Except.ok (true, fs7, []) := by
  unfold bundle_server
  simp [h0, h0b, h0c, e1, e2, e3, e4, e5, e6]

theorem succeeds_of {fs g : FS} {errs : List String}
    (h : bundle_server fs = Except.ok (true, g, errs)) : succeeds fs = true := by
  unfold succeeds
  rw [h]

theorem runFS_eq {fs g : FS} {errs : List String} {flag : Bool}
    (h : bundle_server fs = Except.ok (flag, g, errs)) : runFS fs = g := by
  unfold runFS
  rw [h]

theorem succeeds_run {fs : FS} (h : succeeds fs = true) :
    bundle_server fs = Except.ok (true, runFS fs, []) := by
  unfold succeeds at h
  unfold runFS
  rcases hb : bundle_server fs with e | r
  · rw [hb] at h
    simp at h
  · rw [hb] at h
    obtain ⟨flag, g, errs⟩ := r
    cases flag with
    | false => simp at h
    | true =>
      obtain ⟨he, -⟩ := bundle_server_ok hb
      subst he
      rfl

/-- Running the bundler on any filesystem satisfying the post-run facts of
`run_facts` succeeds and changes nothing: the core of the idempotence
argument. -/
theorem second_run {fs g : FS}
    (M0 : fs bundledServer = some (Node.file (artifactContent fs)))
    (MbinD : fs binDir = some Node.dir)
    (hpc : pexists fs coreDir = true)
    (Msrc : ∀ q, coreDir.isPrefixOf q = true → g q = fs q)
    (Mpre : ∀ q, q.isPrefixOf targetDir = true → g q = some Node.dir)
    (Msrv : g serverTarget = some Node.dir)
    (Msw : ∀ q, sweepKeep q = false → g q = none)
    (Mbin : ∀ rest, g (targetBin ++ rest) = fs (binDir ++ rest))
    (Minit : g initPy = (match fs initPy with | none => some (Node.file "") | some n => some n))
    (Mdst1 : isDir fs dstArtifact = false → g dstArtifact = some (Node.file (artifactContent fs)))
    (Mdst2 : isDir fs dstArtifact = true → g dstArtifact = some Node.dir ∧
      g (dstArtifact ++ ["bundled.js"]) = some (Node.file (artifactContent fs))) :
    bundle_server g = Except.ok (true, g, []) := by
  have hgc : pexists g coreDir = true := by
    unfold pexists
    rw [Msrc coreDir (by decide)]
    exact hpc
  have hgart : g bundledServer = some (Node.file (artifactContent fs)) := by
    rw [Msrc bundledServer (by decide)]
    exact M0
  have hgbin : g binDir = some Node.dir := by
    rw [Msrc binDir (by decide)]
    exact MbinD
  have h0b : pexists g bundledServer = true := by simp [pexists, hgart]
  have h0c : pexists g binDir = true := by simp [pexists, hgbin]
  have u1 : mkdirParents g targetDir = Except.ok g := by
    have hany : (targetDir.inits).any (fun q => isFile g q) = false := by
      cases hb : (targetDir.inits).any (fun q => isFile g q) with
      | false => rfl
      | true =>
        obtain ⟨x, hmem, hx⟩ := List.any_eq_true.mp hb
        obtain ⟨t, ht⟩ := (List.mem_inits x targetDir).mp hmem
        have hpre : x.isPrefixOf targetDir = true := (isPrefixOf_iff _ _).mpr ⟨t, ht.symm⟩
        have hx' : isFile g x = true := hx
        rw [show isFile g x = false from by simp [isFile, Mpre x hpre]] at hx'
        exact Bool.noConfusion hx'
    have hmk : mkAdd g targetDir = g := by
      funext q
      cases hq : q.isPrefixOf targetDir with
      | false => exact mkAdd_out g targetDir q hq
      | true => simp [mkAdd, hq, Mpre q hq]
    rw [mkdirParents_eval hany, hmk]
  have u2 : mkdirSingle g serverTarget = Except.ok g := mkdirSingle_eval_dir Msrv
  have u3 : shutilCopy g bundledServer dstArtifact = Except.ok g := by
    cases hdd : isDir fs dstArtifact with
    | false =>
      have hgdst := Mdst1 hdd
      have hgdir : isDir g dstArtifact = false := by simp [isDir, hgdst]
      have hcd : copyDst g bundledServer dstArtifact = dstArtifact := by
        unfold copyDst
        rw [hgdir]
        rfl
      have hnd : isDir g (copyDst g bundledServer dstArtifact) = false := by
        rw [hcd]
        exact hgdir
      have hok2 : ((g (copyDst g bundledServer dstArtifact)).isNone &&
          !(isDir g (copyDst g bundledServer dstArtifact).dropLast)) = false := by
        rw [hcd]
        simp [hgdst]
      have hset : setNode g dstArtifact (Node.file (artifactContent fs)) = g := by
        funext q
        by_cases hq : q = dstArtifact
        · subst hq
          rw [setNode_self, hgdst]
        · exact setNode_ne g dstArtifact _ q hq
      rw [shutilCopy_eval hgart hnd hok2, hcd, hset]
    | true =>
      obtain ⟨hgdir', hgD2⟩ := Mdst2 hdd
      have hgdir : isDir g dstArtifact = true := by simp [isDir, hgdir']
      have hcd : copyDst g bundledServer dstArtifact = dstArtifact ++ ["bundled.js"] := by
        unfold copyDst
        rw [hgdir]
        rw [if_pos rfl]
        decide
      have hnd : isDir g (copyDst g bundledServer dstArtifact) = false := by
        rw [hcd]
        simp [isDir, hgD2]
      have hok2 : ((g (copyDst g bundledServer dstArtifact)).isNone &&
          !(isDir g (copyDst g bundledServer dstArtifact).dropLast)) = false := by
        rw [hcd]
        simp [hgD2]
      have hset : setNode g (dstArtifact ++ ["bundled.js"]) (Node.file (artifactContent fs))
          = g := by
        funext q
        by_cases hq : q = dstArtifact ++ ["bundled.js"]
        · subst hq
          rw [setNode_self, hgD2]
        · exact setNode_ne g _ _ q hq
      rw [shutilCopy_eval hgart hnd hok2, hcd, hset]
  have hgtb : g targetBin = some Node.dir := by
    have hb := Mbin []
    simp only [List.append_nil] at hb
    rw [hb]
    exact MbinD
  have u4 : (if pexists g targetBin then rmtree g targetBin else Except.ok g)
      = Except.ok (removeTree g targetBin) := binStep_eval_dir hgtb
  have u5 : copytree (removeTree g targetBin) binDir targetBin
      = Except.ok (copySub (removeTree g targetBin) binDir targetBin) := by
    apply copytree_eval
    · rw [removeTree_out g targetBin binDir (by decide)]
      exact hgbin
    · simp [pexists, removeTree, isPrefixOf_self]
  have hsweep : sweep (copySub (removeTree g targetBin) binDir targetBin) = g := by
    funext q
    cases hk : sweepKeep q with
    | false => rw [sweep_drop _ q hk, Msw q hk]
    | true =>
      rw [sweep_keep _ q hk]
      cases hq : targetBin.isPrefixOf q with
      | false => rw [copySub_out _ _ _ q hq, removeTree_out g targetBin q hq]
      | true =>
        obtain ⟨t, rfl⟩ := (isPrefixOf_iff _ _).mp hq
        rw [copySub_in _ binDir targetBin t,
          removeTree_out g targetBin (binDir ++ t) (targetBin_notPre_core ("bin" :: t)),
          Msrc (binDir ++ t) ((isPrefixOf_iff coreDir (binDir ++ t)).mpr ⟨"bin" :: t, rfl⟩),
          Mbin t]
  have u6 : touch g initPy = Except.ok g := by
    cases hfi : fs initPy with
    | none =>
      have hip : g initPy = some (Node.file "") := by rw [Minit, hfi]
      exact touch_eval_some hip
    | some n =>
      have hip : g initPy = some n := by rw [Minit, hfi]
      exact touch_eval_some hip
  have u6' : touch (sweep (copySub (removeTree g targetBin) binDir targetBin)) initPy
      = Except.ok g := by
    rw [hsweep]
    exact u6
  exact bundle_server_eval hgc h0b h0c u1 u2 u3 u4 u5 u6'

theorem targetDir_anc_cases {q : List String} (hq : q.isPrefixOf targetDir = true) :
    q = [] ∨ q = ["sdks"] ∨ q = ["sdks", "python"] ∨ q = ["sdks", "python", "pmxt"] ∨
      q = targetDir := by
  obtain ⟨t, ht⟩ := (isPrefixOf_iff _ _).mp hq
  rcases q with _ | ⟨a, _ | ⟨b, _ | ⟨c', _ | ⟨d, _ | ⟨e, q'⟩⟩⟩⟩⟩
  · exact Or.inl rfl
  · simp only [targetDir, List.cons_append, List.nil_append, List.cons.injEq] at ht
    obtain ⟨rfl, -⟩ := ht
    exact Or.inr (Or.inl rfl)
  · simp only [targetDir, List.cons_append, List.nil_append, List.cons.injEq] at ht
    obtain ⟨rfl, rfl, -⟩ := ht
    exact Or.inr (Or.inr (Or.inl rfl))
  · simp only [targetDir, List.cons_append, List.nil_append, List.cons.injEq] at ht
    obtain ⟨rfl, rfl, rfl, -⟩ := ht
    exact Or.inr (Or.inr (Or.inr (Or.inl rfl)))
  · simp only [targetDir, List.cons_append, List.nil_append, List.cons.injEq] at ht
    obtain ⟨rfl, rfl, rfl, rfl, ht'⟩ := ht
    exact Or.inr (Or.inr (Or.inr (Or.inr rfl)))
  · simp [targetDir] at ht

theorem sweepKeep_child_false (name : String) (rest : List String)
    (h1 : ¬(name = "bundled.js")) (h2 : ¬(name = "__pycache__")) :
    sweepKeep (serverTarget ++ name :: rest) = false := by
  have e1 : serverTarget.isPrefixOf (serverTarget ++ name :: rest) = true :=
    isPrefixOf_append_self _ _
  have e2 : ((serverTarget ++ name :: rest).length == serverTarget.length) = false := by
    rw [beq_eq_false_iff_ne]
    simp only [List.length_append, List.length_cons, serverTarget]
    omega
  have e3 : ((serverTarget ++ name :: rest).get? serverTarget.length
      == some "bundled.js") = false := by
    rw [show (serverTarget ++ name :: rest).get? serverTarget.length = some name from rfl,
      beq_eq_false_iff_ne]
    simp [h1]
  have e4 : ((serverTarget ++ name :: rest).get? serverTarget.length
      == some "__pycache__") = false := by
    rw [show (serverTarget ++ name :: rest).get? serverTarget.length = some name from rfl,
      beq_eq_false_iff_ne]
    simp [h2]
  unfold sweepKeep
  rw [e1, e2, e3, e4]
  rfl

/-! ### The claims -/

/-- C1 (counterexample): the claim quantifies over every filesystem state in
which the core directory, artifact and bin directory exist and no target
directory pre-exists. On `fsBlocked` all four conditions hold, yet a regular
file occupies the target ancestor `sdks/python/pmxt`, so
`mkdir(parents=True)` raises an unhandled exception and `bundle_server` does
not return true. -/
theorem c1_blocked_ancestor :
    fsBlocked coreDir = some Node.dir ∧
    fsBlocked bundledServer = some (Node.file "ART") ∧
    fsBlocked binDir = some Node.dir ∧
    fsBlocked targetDir = none ∧
    succeeds fsBlocked = false ∧
    faulted fsBlocked = true := by decide

/-- C1 (amended): on a filesystem where the core directory, built artifact and
bin directory are present, the target directory is absent (and with it, as on
any real filesystem, everything below it), and additionally no regular file
blocks a target ancestor (as in the monorepo checkout the script runs from),
`bundle_server` returns True; afterwards `pmxt/_server/server/bundled.js`
holds the source artifact's content, the destination bin subtree equals the
source bin subtree pointwise, and `pmxt/_server/__init__.py` exists and is
empty. -/
theorem c1_fresh_run {fs : FS} {c : String}
    (hcore : fs coreDir = some Node.dir)
    (hart : fs bundledServer = some (Node.file c))
    (hbin : fs binDir = some Node.dir)
    (htgt : ∀ q, targetDir.isPrefixOf q = true → fs q = none)
    (hanc : ∀ q, q.isPrefixOf targetDir = true → isFile fs q = false) :
    succeeds fs = true ∧
    runFS fs dstArtifact = some (Node.file c) ∧
    (∀ rest, runFS fs (targetBin ++ rest) = fs (binDir ++ rest)) ∧
    runFS fs initPy = some (Node.file "") := by
  have hmtgt : mkAdd fs targetDir targetDir = some Node.dir := by
    simp [mkAdd, isPrefixOf_self, htgt targetDir (isPrefixOf_self targetDir)]
  have hmnone : ∀ q, targetDir.isPrefixOf q = true → q ≠ targetDir →
      mkAdd fs targetDir q = none := by
    intro q hq hne
    rw [mkAdd_out fs targetDir q (isPrefixOf_antisymm hq hne)]
    exact htgt q hq
  have e1 : mkdirParents fs targetDir = Except.ok (mkAdd fs targetDir) := by
    apply mkdirParents_eval
    cases hb : (targetDir.inits).any (fun q => isFile fs q) with
    | false => rfl
    | true =>
      obtain ⟨x, hmem, hx⟩ := List.any_eq_true.mp hb
      obtain ⟨t, ht⟩ := (List.mem_inits x targetDir).mp hmem
      have hpre : x.isPrefixOf targetDir = true := (isPrefixOf_iff _ _).mpr ⟨t, ht.symm⟩
      have hx' : isFile fs x = true := hx
      rw [hanc x hpre] at hx'
      exact Bool.noConfusion hx'
  have e2 : mkdirSingle (mkAdd fs targetDir) serverTarget
      = Except.ok (setNode (mkAdd fs targetDir) serverTarget Node.dir) := by
    apply mkdirSingle_eval_new
    · exact hmnone serverTarget (by decide) (by decide)
    · rw [show serverTarget.dropLast = targetDir from by decide]
      simp [isDir, hmtgt]
  have hsrc2 : setNode (mkAdd fs targetDir) serverTarget Node.dir bundledServer
      = some (Node.file c) := by
    rw [setNode_ne _ _ _ bundledServer (by decide),
      mkAdd_out fs targetDir bundledServer (by decide)]
    exact hart
  have hdst2 : setNode (mkAdd fs targetDir) serverTarget Node.dir dstArtifact = none := by
    rw [setNode_ne _ _ _ dstArtifact (by decide)]
    exact hmnone dstArtifact (by decide) (by decide)
  have hcd : copyDst (setNode (mkAdd fs targetDir) serverTarget Node.dir) bundledServer
      dstArtifact = dstArtifact := by
    unfold copyDst
    rw [show isDir (setNode (mkAdd fs targetDir) serverTarget Node.dir) dstArtifact = false
      from by simp [isDir, hdst2]]
    rfl
  have e3 : shutilCopy (setNode (mkAdd fs targetDir) serverTarget Node.dir) bundledServer
      dstArtifact = Except.ok (setNode (setNode (mkAdd fs targetDir) serverTarget Node.dir)
        dstArtifact (Node.file c)) := by
    have h1 : isDir (setNode (mkAdd fs targetDir) serverTarget Node.dir)
        (copyDst (setNode (mkAdd fs targetDir) serverTarget Node.dir) bundledServer dstArtifact)
        = false := by
      rw [hcd]
      simp [isDir, hdst2]
    have h2 : (((setNode (mkAdd fs targetDir) serverTarget Node.dir)
        (copyDst (setNode (mkAdd fs targetDir) serverTarget Node.dir) bundledServer
          dstArtifact)).isNone &&
        !(isDir (setNode (mkAdd fs targetDir) serverTarget Node.dir)
          (copyDst (setNode (mkAdd fs targetDir) serverTarget Node.dir) bundledServer
            dstArtifact).dropLast)) = false := by
      rw [hcd, show dstArtifact.dropLast = serverTarget from by decide]
      simp [isDir, setNode_self, hdst2]
    rw [shutilCopy_eval hsrc2 h1 h2, hcd]
  have htb3 : setNode (setNode (mkAdd fs targetDir) serverTarget Node.dir) dstArtifact
      (Node.file c) targetBin = none := by
    rw [setNode_ne _ _ _ targetBin (by decide), setNode_ne _ _ _ targetBin (by decide)]
    exact hmnone targetBin (by decide) (by decide)
  have e4 : (if pexists (setNode (setNode (mkAdd fs targetDir) serverTarget Node.dir)
      dstArtifact (Node.file c)) targetBin then rmtree (setNode (setNode (mkAdd fs targetDir)
      serverTarget Node.dir) dstArtifact (Node.file c)) targetBin else Except.ok (setNode
      (setNode (mkAdd fs targetDir) serverTarget Node.dir) dstArtifact (Node.file c)))
      = Except.ok (setNode (setNode (mkAdd fs targetDir) serverTarget Node.dir) dstArtifact
        (Node.file c)) := by
    apply binStep_eval_none
    simp [pexists, htb3]
  have hbin3 : setNode (setNode (mkAdd fs targetDir) serverTarget Node.dir) dstArtifact
      (Node.file c) binDir = some Node.dir := by
    rw [setNode_ne _ _ _ binDir (by decide), setNode_ne _ _ _ binDir (by decide),
      mkAdd_out fs targetDir binDir (by decide)]
    exact hbin
  have e5 : copytree (setNode (setNode (mkAdd fs targetDir) serverTarget Node.dir) dstArtifact
      (Node.file c)) binDir targetBin = Except.ok (copySub (setNode (setNode (mkAdd fs
      targetDir) serverTarget Node.dir) dstArtifact (Node.file c)) binDir targetBin) := by
    apply copytree_eval hbin3
    simp [pexists, htb3]
  have hip6 : sweep (copySub (setNode (setNode (mkAdd fs targetDir) serverTarget Node.dir)
      dstArtifact (Node.file c)) binDir targetBin) initPy = none := by
    rw [sweep_keep _ initPy (by decide), copySub_out _ _ _ initPy (by decide),
      setNode_ne _ _ _ initPy (by decide), setNode_ne _ _ _ initPy (by decide)]
    exact hmnone initPy (by decide) (by decide)
  have htd6 : isDir (sweep (copySub (setNode (setNode (mkAdd fs targetDir) serverTarget
      Node.dir) dstArtifact (Node.file c)) binDir targetBin)) initPy.dropLast = true := by
    rw [show initPy.dropLast = targetDir from by decide]
    have hv : sweep (copySub (setNode (setNode (mkAdd fs targetDir) serverTarget Node.dir)
        dstArtifact (Node.file c)) binDir targetBin) targetDir = some Node.dir := by
      rw [sweep_keep _ targetDir (by decide), copySub_out _ _ _ targetDir (by decide),
        setNode_ne _ _ _ targetDir (by decide), setNode_ne _ _ _ targetDir (by decide)]
      exact hmtgt
    simp [isDir, hv]
  have e6 : touch (sweep (copySub (setNode (setNode (mkAdd fs targetDir) serverTarget Node.dir)
      dstArtifact (Node.file c)) binDir targetBin)) initPy = Except.ok (setNode (sweep (copySub
      (setNode (setNode (mkAdd fs targetDir) serverTarget Node.dir) dstArtifact (Node.file c))
      binDir targetBin)) initPy (Node.file "")) :=
    touch_eval_none hip6 htd6
  have hrun : bundle_server fs = Except.ok (true, setNode (sweep (copySub (setNode (setNode
      (mkAdd fs targetDir) serverTarget Node.dir) dstArtifact (Node.file c)) binDir targetBin))
      initPy (Node.file ""), []) :=
    bundle_server_eval (by simp [pexists, hcore]) (by simp [pexists, hart])
      (by simp [pexists, hbin]) e1 e2 e3 e4 e5 e6
  have hsucc : succeeds fs = true := by
    unfold succeeds
    rw [hrun]
  obtain ⟨-, -, -, -, -, -, -, Mbin, Minit, Mdst1, -⟩ := run_facts (succeeds_run hsucc)
  have hacc : artifactContent fs = c := by simp [artifactContent, hart]
  refine ⟨hsucc, ?_, Mbin, ?_⟩
  · have hdfalse : isDir fs dstArtifact = false := by
      simp [isDir, htgt dstArtifact (by decide)]
    rw [Mdst1 hdfalse, hacc]
  · rw [Minit, htgt initPy (by decide)]

/-- C1 witness: a concrete fresh monorepo checkout. -/
theorem c1_fresh_run_witness :
    succeeds fsFresh = true ∧
    runFS fsFresh dstArtifact = some (Node.file "ART") ∧
    (∀ rest, runFS fsFresh (targetBin ++ rest) = fsFresh (binDir ++ rest)) ∧
    runFS fsFresh initPy = some (Node.file "") := by
  refine c1_fresh_run (by decide) (by decide) (by decide) ?_ ?_
  · intro q hq
    unfold fsFresh
    split_ifs with h1 h2 h3 h4 h5 h6 h7 h8 h9 <;>
      first
        | rfl
        | (subst_vars; exact absurd hq (by decide))
  · intro q hq
    rcases targetDir_anc_cases hq with rfl | rfl | rfl | rfl | rfl <;> decide

/-- C2 (counterexample): the claim says that after a successful run the
`server` subdirectory contains exactly the artifact file plus optionally a
cache-artifact directory. On `fsPre` — where a regular file named
`__pycache__` sits in the server directory — the run succeeds, yet afterwards
that entry is still a regular file, not a directory, so the subdirectory holds
a second entry that is neither the artifact nor a directory. -/
theorem c2_cache_entry_can_be_file :
    succeeds fsPre = true ∧
    runFS fsPre (serverTarget ++ ["__pycache__"]) = some (Node.file "junk") ∧
    Node.file "junk" ≠ Node.dir := by decide

/-- C2 (amended): after any successful run, every entry of the `server`
subdirectory is named `bundled.js` or `__pycache__` (the exemption is by name
only, so the `__pycache__` entry need not be a directory); an entry named
`bundled.js` is present, and it is the copied artifact file whenever no
directory previously occupied that path. -/
theorem c2_server_entries_by_name {fs : FS} (h : succeeds fs = true) :
    (∀ name rest, ¬(name = "bundled.js") → ¬(name = "__pycache__") →
      runFS fs (serverTarget ++ name :: rest) = none) ∧
    runFS fs dstArtifact ≠ none ∧
    (isDir fs dstArtifact = false →
      runFS fs dstArtifact = some (Node.file (artifactContent fs))) := by
  obtain ⟨-, -, -, -, -, -, Msw, -, -, Mdst1, Mdst2⟩ := run_facts (succeeds_run h)
  refine ⟨?_, ?_, Mdst1⟩
  · intro name rest h1 h2
    exact Msw _ (sweepKeep_child_false name rest h1 h2)
  · cases hdd : isDir fs dstArtifact with
    | false =>
      rw [Mdst1 hdd]
      simp
    | true =>
      rw [(Mdst2 hdd).1]
      simp

/-- C2 witness: on `fsPre` the stray entry of the server directory is gone
after the run. -/
theorem c2_server_entries_by_name_witness :
    runFS fsPre (serverTarget ++ "stray" :: []) = none :=
  (c2_server_entries_by_name (by decide)).1 "stray" [] (by decide) (by decide)

/-- C3: after any successful run, the destination bin subtree equals the
source bin subtree pointwise — files present only in the old destination are
gone, because the destination bin directory is removed entirely and the source
bin directory is recursively copied anew. -/
theorem c3_bin_full_mirror {fs : FS} (h : succeeds fs = true) :
    ∀ rest, runFS fs (targetBin ++ rest) = fs (binDir ++ rest) := by
  obtain ⟨-, -, -, -, -, -, -, Mbin, -, -, -⟩ := run_facts (succeeds_run h)
  exact Mbin

/-- C3 witness: on `fsPre`, the copied bin entry. -/
theorem c3_bin_full_mirror_witness :
    runFS fsPre (targetBin ++ ["cli"]) = fsPre (binDir ++ ["cli"]) :=
  c3_bin_full_mirror (by decide) ["cli"]

/-- C4: when the core directory does not exist, `bundle_server` prints its
two diagnostic lines to stderr and returns False with the filesystem
unchanged — in particular the target directory is not created. -/
theorem c4_missing_core_no_mutation (fs : FS) (h : fs coreDir = none) :
    bundle_server fs = Except.ok (false, fs, coreMissingMsg) ∧ coreMissingMsg ≠ [] := by
  constructor
  · unfold bundle_server
    simp [pexists, h]
  · simp [coreMissingMsg]

/-- C4 witness: the empty filesystem. -/
theorem c4_missing_core_no_mutation_witness :
    bundle_server fsEmpty = Except.ok (false, fsEmpty, coreMissingMsg) ∧
      coreMissingMsg ≠ [] :=
  c4_missing_core_no_mutation fsEmpty rfl

/-- C5: when the core directory exists but the built artifact is missing, or
the artifact exists but the bin directory is missing, `bundle_server` prints a
diagnostic to stderr and returns False with the filesystem unchanged (no copy
or other mutation has happened). -/
theorem c5_missing_artifact_or_bin_no_mutation (fs : FS)
    (hcore : (fs coreDir).isSome = true) :
    (fs bundledServer = none →
      bundle_server fs = Except.ok (false, fs, bundledMissingMsg) ∧ bundledMissingMsg ≠ []) ∧
    ((fs bundledServer).isSome = true → fs binDir = none →
      bundle_server fs = Except.ok (false, fs, binMissingMsg) ∧ binMissingMsg ≠ []) := by
  constructor
  · intro h
    refine ⟨?_, by simp [bundledMissingMsg]⟩
    unfold bundle_server
    simp [pexists, hcore, h]
  · intro h1 h2
    refine ⟨?_, by simp [binMissingMsg]⟩
    unfold bundle_server
    simp [pexists, hcore, h1, h2]

/-- C5 witness: a filesystem holding only the core directory. -/
theorem c5_missing_artifact_or_bin_no_mutation_witness :
    bundle_server fsCoreOnly = Except.ok (false, fsCoreOnly, bundledMissingMsg) ∧
      bundledMissingMsg ≠ [] :=
  (c5_missing_artifact_or_bin_no_mutation fsCoreOnly (by decide)).1 rfl

/-- C6 (counterexample): the claim quantifies over every filesystem state
satisfying the three preconditions. On `fsBlocked` all three hold, yet the
first run aborts with an unhandled exception before producing any destination
layout, and a second run fares no better — so the second run does not return
success. -/
theorem c6_blocked_ancestor :
    pexists fsBlocked coreDir = true ∧
    pexists fsBlocked bundledServer = true ∧
    pexists fsBlocked binDir = true ∧
    faulted fsBlocked = true ∧
    succeeds fsBlocked = false ∧
    succeeds (runFS fsBlocked) = false := by decide

/-- C6 (amended): running `bundle_server` twice in succession with unchanged
source inputs: if the first run succeeds, the second run also succeeds and
leaves the filesystem — destination layout included — exactly as the first run
left it. -/
theorem c6_idempotent {fs : FS} (h : succeeds fs = true) :
    succeeds (runFS fs) = true ∧ runFS (runFS fs) = runFS fs := by
  obtain ⟨M0, MbinD, hpc, Msrc, Mpre, Msrv, Msw, Mbin, Minit, Mdst1, Mdst2⟩ :=
    run_facts (succeeds_run h)
  have h2 : bundle_server (runFS fs) = Except.ok (true, runFS fs, []) :=
    second_run M0 MbinD hpc Msrc Mpre Msrv Msw Mbin Minit Mdst1 Mdst2
  exact ⟨succeeds_of h2, runFS_eq h2⟩

/-- C6 witness: on `fsPre` the first run succeeds, hence the second run
succeeds and changes nothing. -/
theorem c6_idempotent_witness :
    succeeds (runFS fsPre) = true ∧ runFS (runFS fsPre) = runFS fsPre :=
  c6_idempotent (by decide)

/-- C7: invoked as a script, the process exits with status 0 exactly when
`bundle_server` returns True, and with status 1 on each of the three
recognized precondition failures (missing core directory, missing artifact,
missing bin directory). An unhandled exception is an abnormal abort with no
recognized status in the model. -/
theorem c7_exit_status (fs : FS) :
    (main_exit fs = some 0 ↔ succeeds fs = true) ∧
    (fs coreDir = none → main_exit fs = some 1) ∧
    ((fs coreDir).isSome = true → fs bundledServer = none → main_exit fs = some 1) ∧
    ((fs coreDir).isSome = true → (fs bundledServer).isSome = true → fs binDir = none →
      main_exit fs = some 1) := by
  refine ⟨?_, ?_, ?_, ?_⟩
  · unfold main_exit succeeds
    rcases hb : bundle_server fs with e | ⟨flag, g, errs⟩
    · simp
    · cases flag <;> simp
  · intro h
    unfold main_exit bundle_server
    simp [pexists, h]
  · intro h1 h2
    unfold main_exit bundle_server
    simp [pexists, h1, h2]
  · intro h1 h2 h3
    unfold main_exit bundle_server
    simp [pexists, h1, h2, h3]

/-- C7 witness: on the empty filesystem the script exits with status 1. -/
theorem c7_exit_status_witness : main_exit fsEmpty = some 1 :=
  (c7_exit_status fsEmpty).2.1 rfl

/-- C8 (counterexample): the claim says the marker file exists and is empty
after every successful run. On `fsPre`, where a non-empty `__init__.py`
already exists, the run succeeds but `touch` does not truncate: the marker
file still holds its stale content, so it is not empty. -/
theorem c8_marker_not_emptied :
    succeeds fsPre = true ∧
    runFS fsPre initPy = some (Node.file "stale") ∧
    Node.file "stale" ≠ Node.file "" := by decide

/-- C8 (amended): after any successful run the marker entry
`pmxt/_server/__init__.py` exists; when nothing previously existed there it is
created as an empty file, and when an entry already existed the touch is a
no-op that leaves it unchanged (in particular a pre-existing non-empty file is
not truncated). -/
theorem c8_marker_touch {fs : FS} (h : succeeds fs = true) :
    runFS fs initPy ≠ none ∧
    (fs initPy = none → runFS fs initPy = some (Node.file "")) ∧
    (∀ n, fs initPy = some n → runFS fs initPy = some n) := by
  obtain ⟨-, -, -, -, -, -, -, -, Minit, -, -⟩ := run_facts (succeeds_run h)
  refine ⟨?_, ?_, ?_⟩
  · rw [Minit]
    cases hfi : fs initPy <;> simp
  · intro hfi
    rw [Minit, hfi]
  · intro n hfi
    rw [Minit, hfi]

/-- C8 witness: the stale marker on `fsPre` survives unchanged. -/
theorem c8_marker_touch_witness : runFS fsPre initPy = some (Node.file "stale") :=
  (c8_marker_touch (by decide)).2.2 (Node.file "stale") (by decide)

/-- C9: the three precondition checks test only existence, not kind. On
`fsDirArtifact` a directory occupies the artifact path: all three checks pass,
`bundle_server` creates the target directory (a mutation), and then
`shutil.copy` raises `IsADirectoryError` — an unhandled fault during copying —
instead of returning the recognized failure result. -/
theorem c9_existence_only_checks :
    pexists fsDirArtifact coreDir = true ∧
    fsDirArtifact bundledServer = some Node.dir ∧
    pexists fsDirArtifact bundledServer = true ∧
    pexists fsDirArtifact binDir = true ∧
    faulted fsDirArtifact = true ∧
    faultExc fsDirArtifact = some "IsADirectoryError" ∧
    runFS fsDirArtifact targetDir = some Node.dir := by decide

/-- C10: the sweep exempts entries by name only. On `fsPre` a regular file
named `__pycache__` sits in the server directory: the run succeeds, that file
survives, the stray file is removed, and the subdirectory afterwards holds two
regular files — the artifact and the `__pycache__`-named file. -/
theorem c10_pycache_name_only :
    fsPre (serverTarget ++ ["__pycache__"]) = some (Node.file "junk") ∧
    succeeds fsPre = true ∧
    runFS fsPre (serverTarget ++ ["__pycache__"]) = some (Node.file "junk") ∧
    runFS fsPre dstArtifact = some (Node.file "ART") ∧
    runFS fsPre (serverTarget ++ ["stray"]) = none := by decide

end PmxtBundle
